import Mathlib

/-!
TURNORD: ticket lifecycle of the customer and admin clients.

A shallow embedding of the ticket logic of `src/usuario/usuario.js` and
`src/admin/turno.js`.

Conventions of the embedding.

* An instant (`new Date()`, `created_at`, `started_at`) is its `getTime()` value: integer
  milliseconds since 1970-01-01T00:00:00Z.
* A calendar date (`fecha`, the first ten characters of `toISOString()`) is the number of
  whole UTC days since 1970-01-01; the two representations correspond one to one.
* A JavaScript Number that holds an integer is an `Int` that a double can hold: `parseInt`
  and `+` round to the nearest double (ties to even), so they are exact up to `2^53` only.
* A JavaScript string is a `String`; every character that the code cuts off by position is
  an ASCII character, so code points and UTF-16 units coincide where it matters.
* Each `await supabase.from(..)...` is a pure function of the table contents; the result of a
  query is passed to the function that consumes it.
-/

set_option exponentiation.threshold 1100

namespace Turnord

/-! ## JavaScript primitives used by the clients -/

/-- The value of a JavaScript Number as far as the clients use it: `NaN`, an integer that a
double holds, or an infinity with its sign. -/
inductive JSNum where
  | nan : JSNum
  | num (v : Int) : JSNum
  | inf (negativo : Bool) : JSNum
  deriving DecidableEq, Repr

/-- How many times `n` is halved until it is below `2^53`: the binary exponent that leaves
a 53-bit mantissa. -/
def exponenteDoble : Nat → Nat → Nat
  | 0, _ => 0
  | fuel + 1, n => if n < 2 ^ 53 then 0 else exponenteDoble fuel (n / 2) + 1

/-- The natural number nearest to `n` that a double holds: `n` itself up to `2^53`, beyond
that `n` rounded to 53 significant bits, a tie going to the even mantissa. -/
def redondearDoble (n : Nat) : Nat :=
  if n ≤ 2 ^ 53 then n
  else
    let e := exponenteDoble n n
    let q := n / 2 ^ e
    let r := n % 2 ^ e
    let q2 := if 2 * r < 2 ^ e then q else if 2 ^ e < 2 * r then q + 1 else q + q % 2
    q2 * 2 ^ e

/-- The Number for a sign and an integer magnitude: the nearest double, and `Infinity` when
that rounding reaches `2^1024`. -/
def aNumero (negativo : Bool) (n : Nat) : JSNum :=
  let m := redondearDoble n
  if 2 ^ 1024 ≤ m then JSNum.inf negativo
  else if negativo then JSNum.num (-(m : Int)) else JSNum.num (m : Int)

/-- The decimal that `Number::toString` prints for the double `x`: the integer with the
fewest significant digits whose nearest double is `x`, the one closest to `x` when two have
that many digits. It tries `k`, `k + 1`, ... significant digits; `n` is the digit count of
`x`. -/
def decimalCorto (x n : Nat) : Nat → Nat → Nat
  | 0, _ => x
  | fuel + 1, k =>
    let p := 10 ^ (n - k)
    let abajo := x / p * p
    let arriba := abajo + p
    let okAbajo := redondearDoble abajo = x
    let okArriba := redondearDoble arriba = x
    if okAbajo ∧ okArriba then
      (if x - abajo < arriba - x then abajo
       else if arriba - x < x - abajo then arriba
       else if (x / p) % 2 = 0 then abajo else arriba)
    else if okAbajo then abajo
    else if okArriba then arriba
    else decimalCorto x n fuel (k + 1)

/-- A run of digits without the zeros at its end. -/
def sinCerosFinales (ds : List Char) : List Char :=
  (ds.reverse.dropWhile (fun c => c = '0')).reverse

/-- `String(x)` for a natural number `x` that a double holds: every digit up to `2^53`,
beyond that the shortest decimal that reads back as `x`, in exponent form from `10^21` on. -/
def textoNatural (x : Nat) : String :=
  if x ≤ 2 ^ 53 then Nat.repr x
  else
    let v := decimalCorto x (Nat.toDigits 10 x).length 17 1
    let ds := Nat.toDigits 10 v
    if ds.length ≤ 21 then String.mk ds
    else
      match sinCerosFinales ds with
      | [] => String.mk ds
      | [d] => String.mk [d] ++ "e+" ++ Nat.repr (ds.length - 1)
      | d :: resto => String.mk (d :: '.' :: resto) ++ "e+" ++ Nat.repr (ds.length - 1)

/-- White space that `parseInt` skips at the start of its argument (`StrWhiteSpaceChar`). -/
def isStrWhiteSpace (c : Char) : Bool :=
  let n := c.toNat
  n = 9 || n = 10 || n = 11 || n = 12 || n = 13 || n = 32 || n = 0xA0 || n = 0x1680 ||
  (0x2000 ≤ n && n ≤ 0x200A) || n = 0x2028 || n = 0x2029 || n = 0x202F || n = 0x205F ||
  n = 0x3000 || n = 0xFEFF

/-- One step of reading a decimal numeral: shift the value and add the digit. -/
def pasoDigito (acc : Nat) (c : Char) : Nat := acc * 10 + (c.toNat - 48)

/-- Value of a run of decimal digit characters, most significant digit first. -/
def valorDigitos (ds : List Char) : Nat :=
  ds.foldl pasoDigito 0

/-- The optional sign that `parseInt` reads: whether it is `-`, and the rest. -/
def leerSigno : List Char → Bool × List Char
  | '-' :: r => (true, r)
  | '+' :: r => (false, r)
  | t => (false, t)

/-- `parseInt(s, 10)`: skip leading white space, read an optional sign, then the longest run
of decimal digits; the result is `NaN` when that run is empty, else the Number nearest to
the signed value of the run (the run is read in full, also past its twentieth digit). -/
def parseInt (s : String) : JSNum :=
  let signo := leerSigno (s.data.dropWhile isStrWhiteSpace)
  let ds := signo.2.takeWhile Char.isDigit
  if ds = [] then JSNum.nan
  else aNumero signo.1 (valorDigitos ds)

/-- The expression `x + 1` on Numbers: the exact sum, rounded to the nearest double. -/
def JSNum.masUno : JSNum → JSNum
  | JSNum.nan => JSNum.nan
  | JSNum.inf negativo => JSNum.inf negativo
  | JSNum.num v => aNumero (decide (v + 1 < 0)) (v + 1).natAbs

/-- `String(x)` for a Number. -/
def JSNum.aTexto : JSNum → String
  | JSNum.nan => "NaN"
  | JSNum.inf false => "Infinity"
  | JSNum.inf true => "-Infinity"
  | JSNum.num (Int.ofNat n) => textoNatural n
  | JSNum.num (Int.negSucc n) => "-" ++ textoNatural (n + 1)

/-- `s.padStart(largo, relleno)` for a one-character filler. -/
def padStart (s : String) (largo : Nat) (relleno : Char) : String :=
  if largo ≤ s.length then s else String.mk (List.replicate (largo - s.length) relleno) ++ s

/-- `s.substring(1)`. -/
def substring1 (s : String) : String :=
  String.mk (s.data.drop 1)

/-- The result object `{ data, error }` of a store request. -/
structure Respuesta (α : Type) where
  data : Option α
  error : Option String
  deriving DecidableEq, Repr

/-! ## Dates -/

/-- Milliseconds in a day, `1000 * 60 * 60 * 24`. -/
def msPorDia : Int := 1000 * 60 * 60 * 24

/-- Days from 1970-01-01 to the proleptic Gregorian date `anio-mes-dia`. -/
def diasDesdeCivil (anio mes dia : Int) : Int :=
  let y := if mes ≤ 2 then anio - 1 else anio
  let era := y / 400
  let yoe := y - era * 400
  let mp := (mes + 9) % 12
  let doy := (153 * mp + 2) / 5 + dia - 1
  let doe := yoe * 365 + yoe / 4 - yoe / 100 + doy
  era * 146097 + doe - 719468

/-- The UTC calendar date of an instant, `toISOString().slice(0, 10)`, as a day number. -/
def fechaUTC (t : Int) : Int := t / msPorDia

/-- The value of `new Date('2024-08-23')`: midnight UTC of that date. -/
def fechaBase : Int := diasDesdeCivil 2024 8 23 * msPorDia

/-- The letters `A` to `Z`. -/
def alfabeto : List Char := "ABCDEFGHIJKLMNOPQRSTUVWXYZ".data

/-! ## Ticket codes (`usuario.js`) -/

/-- `obtenerLetraDelDia()` of `usuario.js`, with `hoy` the instant of the call. `Math.floor`
of the quotient is floor division and `%` is the truncating remainder of JavaScript. -/
def obtenerLetraDelDia (hoy : Int) : Char :=
  let diferenciaDias := (hoy - fechaBase) / msPorDia
  let indiceDia := Int.tmod (Int.tmod diferenciaDias 26 + 26) 26
  Char.ofNat (65 + indiceDia.toNat)

/-- One row of `.select('turno')`; the column is nullable. -/
structure FilaTurno where
  turno : Option String
  deriving DecidableEq, Repr

/-- The template literal that joins the day letter and a suffix. -/
def codigo (letraHoy : Char) (sufijo : String) : String :=
  String.mk [letraHoy] ++ sufijo

/-- `generarNuevoTurno()` of `usuario.js`, given the day letter and the result of its
last-code query (`fecha = hoy`, `turno like letra%`, newest first, `limit 1`). -/
def generarNuevoTurno (letraHoy : Char) (r : Respuesta (List FilaTurno)) : String :=
  match r.error, r.data with
  | some _, _ => codigo letraHoy "01"
  | none, none => codigo letraHoy "01"
  | none, some [] => codigo letraHoy "01"
  | none, some (fila :: _) =>
    let ultimo :=
      match fila.turno with
      | none => codigo letraHoy "00"
      | some t => if t = "" then codigo letraHoy "00" else t
    let numero := (parseInt (substring1 ultimo)).masUno
    codigo letraHoy (padStart numero.aTexto 2 '0')

/-! ## The ticket table -/

/-- One row of the table `turnos`, with the columns the clients read and write. -/
structure Turno where
  id : Nat
  turno : String
  nombre : String
  telefono : String
  servicio : String
  estado : String
  fecha : Int
  orden : Int
  created_at : Int
  started_at : Option Int
  deriving DecidableEq, Repr

/-- The table `turnos` as the row-level-security policy shows it to one business. -/
abbrev Tabla := List Turno

/-- The filter `.like('turno', letra%)`: the code starts with the letter. -/
def empiezaCon (letra : Char) (s : String) : Bool :=
  s.data.head? = some letra

/-- Rows in `.order('created_at', { ascending: true })`; equal keys keep the table order. -/
def ordenarPorCreacion (filas : List Turno) : List Turno :=
  filas.insertionSort (fun a b => a.created_at ≤ b.created_at)

/-- Rows in `.order('created_at', { ascending: false })`. -/
def ordenarPorCreacionDesc (filas : List Turno) : List Turno :=
  filas.insertionSort (fun a b => b.created_at ≤ a.created_at)

/-- Rows in `.order('orden', { ascending: true }).order('created_at', { ascending: true })`. -/
def ordenarPorOrden (filas : List Turno) : List Turno :=
  filas.insertionSort
    (fun a b => a.orden < b.orden ∨ (a.orden = b.orden ∧ a.created_at ≤ b.created_at))

/-- Comparison of `started_at` values, ascending; rows without a value sort last. -/
def inicioAntes (a b : Turno) : Bool :=
  match a.started_at, b.started_at with
  | some x, some y => decide (x ≤ y)
  | some _, none => true
  | none, some _ => false
  | none, none => true

/-- Rows in `.order('started_at', { ascending: true })`. -/
def ordenarPorInicio (filas : List Turno) : List Turno :=
  filas.insertionSort (fun a b => inicioAntes a b = true)

/-- The projection `.select('turno')`. -/
def soloTurno (filas : List Turno) : List FilaTurno :=
  filas.map (fun r => { turno := some r.turno })

/-- The last-code query of `generarNuevoTurno` (usuario.js:199-205). -/
def consultaUltimoTurno (tabla : Tabla) (fechaHoy : Int) (letraHoy : Char) :
    Respuesta (List FilaTurno) :=
  { data := some (soloTurno ((ordenarPorCreacionDesc
      (tabla.filter (fun r => r.fecha = fechaHoy && empiezaCon letraHoy r.turno))).take 1)),
    error := none }

/-- `generarNuevoTurno()` run at the instant `ahora` against the table. -/
def generarNuevoTurnoEn (ahora : Int) (tabla : Tabla) : String :=
  generarNuevoTurno (obtenerLetraDelDia ahora)
    (consultaUltimoTurno tabla (fechaUTC ahora) (obtenerLetraDelDia ahora))

/-- The identifier the store gives the next inserted row. -/
def siguienteId (tabla : Tabla) : Nat :=
  (tabla.map (fun r => r.id)).foldr max 0 + 1

/-- One ticket creation at the instant `ahora`: the code comes from `generarNuevoTurno` and
the row of the insert (usuario.js:348-359) is filed in state `En espera` under the date the
last-code query filters on, with `created_at` the instant of the insert. -/
def crearTurno (ahora : Int) (nombre telefono servicio : String) (orden : Int)
    (tabla : Tabla) : Tabla :=
  { id := siguienteId tabla, turno := generarNuevoTurnoEn ahora tabla, nombre := nombre,
    telefono := telefono, servicio := servicio, estado := "En espera",
    fecha := fechaUTC ahora, orden := orden, created_at := ahora,
    started_at := none } :: tabla

/-- A customer request: the data typed in the form and the queue slot the store assigns. -/
structure Solicitud where
  ahora : Int
  nombre : String
  telefono : String
  servicio : String
  orden : Int
  deriving DecidableEq, Repr

/-- Sequential creations; returns the codes handed out, in order, and the final table. -/
def crearTurnos : List Solicitud → Tabla → List String × Tabla
  | [], tabla => ([], tabla)
  | q :: qs, tabla =>
    let resto := crearTurnos qs (crearTurno q.ahora q.nombre q.telefono q.servicio q.orden tabla)
    (generarNuevoTurnoEn q.ahora tabla :: resto.1, resto.2)

/-- Three requests on 2024-08-23 (UTC), a second and a minute apart. -/
def solicitudesEjemplo : List Solicitud :=
  [{ ahora := 1724371200000, nombre := "Ana", telefono := "8095550101", servicio := "Corte",
     orden := 1 },
   { ahora := 1724371201000, nombre := "Luis", telefono := "8095550102", servicio := "Barba",
     orden := 2 },
   { ahora := 1724371260000, nombre := "Eva", telefono := "8095550103", servicio := "Corte",
     orden := 3 }]

/-- The format of a ticket code: one uppercase letter followed by exactly two digits. -/
def formatoValido (s : String) : Bool :=
  match s.data with
  | [l, d1, d2] => l.isUpper && d1.isDigit && d2.isDigit
  | _ => false

/-! ## State transitions -/

/-- A waiting ticket of 2024-08-23, used in the examples. -/
def turnoEjemplo : Turno :=
  { id := 1, turno := "A01", nombre := "Ana", telefono := "8095550101", servicio := "Corte",
    estado := "En espera", fecha := 19958, orden := 1, created_at := 1724371200000,
    started_at := none }

/-- The request `.update(cambio)` restricted by filters: rows that match are rewritten. -/
def actualizar (filtro : Turno → Bool) (cambio : Turno → Turno) (tabla : Tabla) : Tabla :=
  tabla.map (fun r => if filtro r then cambio r else r)

/-- Number of rows an update with this filter affects. -/
def filasAfectadas (filtro : Turno → Bool) (tabla : Tabla) : Nat :=
  (tabla.filter filtro).length

/-- The filter of the update in `atenderAhora` (turno.js:233-234). -/
def filtroAtender (turnoActual : Turno) (r : Turno) : Bool :=
  r.id = turnoActual.id && r.estado = "En espera"

/-- `atenderAhora()` of `turno.js` as a change of the table; `turnoActual` is the module
variable and `ahora` the instant of the call. -/
def atenderAhora (turnoActual : Option Turno) (ahora : Int) (tabla : Tabla) : Tabla :=
  match turnoActual with
  | none => tabla
  | some ta =>
    actualizar (filtroAtender ta)
      (fun r => { r with estado := "En atención", started_at := some ahora }) tabla

/-- `cancelarTurno(turnoData)` of `usuario.js` as a change of the table (lines 299-303);
`telefonoUsuario` is the module variable. -/
def cancelarTurno (turnoData : Turno) (telefonoUsuario : String) (tabla : Tabla) : Tabla :=
  actualizar (fun r => r.turno = turnoData.turno && r.telefono = telefonoUsuario)
    (fun r => { r with estado := "Cancelado" }) tabla

/-! ## Queue position -/

/-- The loop of `Array.prototype.findIndex`, from index `k` on. -/
def findIndexDesde {α : Type} (p : α → Bool) : Nat → List α → Int
  | _, [] => -1
  | k, x :: xs => if p x then (k : Int) else findIndexDesde p (k + 1) xs

/-- `arr.findIndex(p)`. -/
def findIndex {α : Type} (p : α → Bool) (xs : List α) : Int :=
  findIndexDesde p 0 xs

/-- `obtenerPosicionEnFila(turnoUsuario)` of `usuario.js`, given the result of its query. -/
def obtenerPosicionEnFila (turnoUsuario : String) (r : Respuesta (List FilaTurno)) : Int :=
  match r.error, r.data with
  | some _, _ => 0
  | none, none => 0
  | none, some data => findIndex (fun t => t.turno = some turnoUsuario) data

/-- The query of `obtenerPosicionEnFila` (usuario.js:240-244). -/
def consultaPosicion (tabla : Tabla) : Respuesta (List FilaTurno) :=
  { data := some (soloTurno (ordenarPorCreacion (tabla.filter (fun r => r.estado = "En espera")))),
    error := none }

/-- `obtenerPosicionEnFila(turnoUsuario)` run against the table. -/
def posicionEnFila (turnoUsuario : String) (tabla : Tabla) : Int :=
  obtenerPosicionEnFila turnoUsuario (consultaPosicion tabla)

/-- The waiting-queue query of `calcularTiempoEstimadoTotal` (usuario.js:276-281). -/
def consultaCola (tabla : Tabla) : List Turno :=
  ordenarPorOrden (tabla.filter (fun r => r.estado = "En espera"))

/-- The waiting-list query of `cargarTurnos` (turno.js:123-129). -/
def consultaEsperaAdmin (tabla : Tabla) (hoy : Int) : List Turno :=
  ordenarPorOrden (tabla.filter (fun r => r.estado = "En espera" && r.fecha = hoy))

/-- The waiting queue `A01 (orden 1)`, `A03 (orden 2)`, `A02 (orden 3)` of 2024-08-23, the
tickets created in the order `A01`, `A02`, `A03`. -/
def colaEjemplo : Tabla :=
  [turnoEjemplo,
   { turnoEjemplo with id := 2, turno := "A02", nombre := "Luis", telefono := "8095550102",
                       orden := 3, created_at := 1724371260000 },
   { turnoEjemplo with id := 3, turno := "A03", nombre := "Eva", telefono := "8095550103",
                       orden := 2, created_at := 1724371320000 }]

/-- A ticket of 2024-08-22 that was never called and is still `En espera`. -/
def turnoAnterior : Turno :=
  { turnoEjemplo with id := 9, turno := "Z07", nombre := "Rosa", telefono := "8095550109",
                      fecha := 19957, orden := 7, created_at := 1724340000000 }

/-! ## Estimated wait -/

/-- The in-service query of `calcularTiempoEstimadoTotal` (usuario.js:259-265). -/
def consultaEnAtencion (tabla : Tabla) (hoy : Int) : List Turno :=
  (ordenarPorInicio
    (tabla.filter (fun r => r.fecha = hoy && r.estado = "En atención"))).take 1

/-- `calcularTiempoEstimadoTotal(turnoObjetivo)` of `usuario.js` at the instant `ahora`
(lines 253-291). `tiempoTotal` starts at `0`; each of the two `try` blocks runs its query
and tests the result, and the body of each `if` holds a comment and no statement, so nothing
is ever added to `tiempoTotal`. The catalog `serviciosCache` is not read. -/
def calcularTiempoEstimadoTotal (ahora : Int) (turnoObjetivo : Option String)
    (tabla : Tabla) : Int :=
  let hoy := fechaUTC ahora
  let tiempoTotal : Int := 0
  let tiempoTotal :=
    match consultaEnAtencion tabla hoy with
    | _ :: _ => tiempoTotal
    | [] => tiempoTotal
  let cola := consultaCola tabla
  let tiempoTotal :=
    if cola.length ≠ 0 then tiempoTotal
    else tiempoTotal
  tiempoTotal

/-- The table of 2024-08-23 at 00:10 UTC: `A00` in service since midnight and the waiting
queue `A01`, `A03`, `A02`. -/
def salaEjemplo : Tabla :=
  [{ turnoEjemplo with id := 0, turno := "A00", estado := "En atención", orden := 0,
                       created_at := 1724371200000, started_at := some 1724371200000 },
   turnoEjemplo,
   { turnoEjemplo with id := 2, turno := "A02", servicio := "Barba", orden := 3,
                       created_at := 1724371260000 },
   { turnoEjemplo with id := 3, turno := "A03", servicio := "Corte", orden := 2,
                       created_at := 1724371320000 }]

/-! ## Operating days -/

/-- An element of the array `dias_operacion` as the store sends it: `null`, a boolean, a
Number, a string, or a nested array or object. -/
inductive JSVal where
  | str (s : String) : JSVal
  | num (n : Int) : JSVal
  | nulo : JSVal
  | bool (b : Bool) : JSVal
  | compuesto : JSVal
  deriving DecidableEq, Repr

/-- The value of `dias_operacion` as the store sends it: `null` or `undefined`, an array, a
string, a boolean, a Number, or an object, of which only whether its `length` property is
`0` matters. -/
inductive DiasOperacion where
  | ausente : DiasOperacion
  | lista (xs : List JSVal) : DiasOperacion
  | texto (s : String) : DiasOperacion
  | booleano (b : Bool) : DiasOperacion
  | numero (n : Int) : DiasOperacion
  | objeto (lengthEsCero : Bool) : DiasOperacion
  deriving DecidableEq, Repr

/-- Whether the characters `parte` stand at the start of `s`. -/
def empiezaPor : List Char → List Char → Bool
  | [], _ => true
  | _ :: _, [] => false
  | a :: parte, b :: s => a = b && empiezaPor parte s

/-- `s.includes(parte)` on strings: `parte` occurs somewhere in `s`. -/
def incluyeTexto : List Char → List Char → Bool
  | [], parte => parte.isEmpty
  | c :: s, parte => empiezaPor parte (c :: s) || incluyeTexto s parte

/-- The configuration object of a client. -/
structure Config where
  hora_apertura : String
  hora_cierre : String
  limite_turnos : Int
  dias_operacion : DiasOperacion
  deriving DecidableEq, Repr

/-- The initial value of `configCache` (usuario.js:11-16). -/
def configCache0 : Config :=
  { hora_apertura := "09:00", hora_cierre := "18:00", limite_turnos := 50,
    dias_operacion := DiasOperacion.lista
      [JSVal.str "Lunes", JSVal.str "Martes", JSVal.str "Miércoles", JSVal.str "Jueves",
       JSVal.str "Viernes", JSVal.str "Sábado"] }

/-- The initial value of `configNegocio` (turno.js:11-16). -/
def configNegocio0 : Config :=
  { hora_apertura := "08:00", hora_cierre := "23:00", limite_turnos := 50,
    dias_operacion := DiasOperacion.lista
      [JSVal.num 1, JSVal.num 2, JSVal.num 3, JSVal.num 4, JSVal.num 5, JSVal.num 6] }

/-- The array `diasSemana` of `verificarDiaLaboralFecha`. -/
def diasSemana : List String :=
  ["Domingo", "Lunes", "Martes", "Miércoles", "Jueves", "Viernes", "Sábado"]

/-- `fecha.getDay()`: the weekday (0 = Sunday) of the instant `fecha` in the zone whose
`getTimezoneOffset()` is `desfaseMin` minutes; 1970-01-01 was a Thursday. -/
def getDay (desfaseMin fecha : Int) : Nat :=
  (((fecha - desfaseMin * 60000) / msPorDia + 4) % 7).toNat

/-- Whether the weekday `dia` (0 = Sunday) belongs to a configured set of weekdays, for a set
held as weekday numbers (the admin default) or as weekday names (the customer default). -/
def diaEnConjunto (xs : List JSVal) (dia : Nat) : Bool :=
  xs.contains (JSVal.num dia) ||
  (match diasSemana[dia]? with
    | some nombre => xs.contains (JSVal.str nombre)
    | none => false)

/-- `verificarDiaLaboralFecha(fecha)` of `usuario.js`. A falsy `dias_operacion` (`null`,
`undefined`, `false`, `0`, the empty string) or one whose `length` is `0` gives `false`; an
array is searched with `includes`, a string with the substring `includes`; any other value
has no `includes` method, the call throws and the `catch` branch returns `true`. -/
def verificarDiaLaboralFecha (configCache : Config) (desfaseMin fecha : Int) : Bool :=
  match configCache.dias_operacion with
  | DiasOperacion.ausente => false
  | DiasOperacion.booleano b => b
  | DiasOperacion.numero n => decide (n ≠ 0)
  | DiasOperacion.objeto lengthEsCero => !lengthEsCero
  | DiasOperacion.texto s =>
    if s.length = 0 then false
    else
      match diasSemana[getDay desfaseMin fecha]? with
      | some dia => incluyeTexto s.data dia.data
      | none => false
  | DiasOperacion.lista xs =>
    if xs.length = 0 then false
    else
      match diasSemana[getDay desfaseMin fecha]? with
      | some dia => xs.contains (JSVal.str dia)
      | none => false

/-! ## Loading the configuration -/

/-- What the caller of a function sees and the value of the configuration variable once the
function is done: `Except.error` is a thrown error that reaches the caller. -/
abbrev Carga (α : Type) := Except String α × Config

/-- The query failed or returned no row: `error` is set or `data` is `null`. -/
def fallida (r : Respuesta Config) : Bool :=
  r.error.isSome || r.data.isNone

/-- The `try` block of `cargarConfiguracion()` (turno.js:75-84): `if (error) throw error`,
then `if (data) configNegocio = data`. -/
def cargarConfiguracionIntento (r : Respuesta Config) (configNegocio : Config) : Carga Unit :=
  match r.error, r.data with
  | some mensaje, _ => (Except.error mensaje, configNegocio)
  | none, none => (Except.ok (), configNegocio)
  | none, some data => (Except.ok (), data)

/-- `cargarConfiguracion()` of `turno.js`, given the result of its query: the `catch` block
logs the error and shows a notification. -/
def cargarConfiguracion (r : Respuesta Config) (configNegocio : Config) : Carga Unit :=
  match cargarConfiguracionIntento r configNegocio with
  | (Except.error _, config) => (Except.ok (), config)
  | (Except.ok u, config) => (Except.ok u, config)

/-- `obtenerConfig()` of `usuario.js`, given the result of its query: it throws on a
reported error, before it touches `configCache`; otherwise it returns `data`. The row carries
the four selected columns, so the spread `{ ...configCache, ...data }` takes all four from
it. -/
def obtenerConfig (r : Respuesta Config) (configCache : Config) : Carga (Option Config) :=
  match r.error, r.data with
  | some mensaje, _ => (Except.error mensaje, configCache)
  | none, none => (Except.ok none, configCache)
  | none, some data => (Except.ok (some data), data)

/-- `actualizarConfiguracion()` of `usuario.js`: it awaits `obtenerConfig()` inside `try`,
shows a notification when a row came back, and its `catch` block logs the error. -/
def actualizarConfiguracion (r : Respuesta Config) (configCache : Config) : Carga Unit :=
  match obtenerConfig r configCache with
  | (Except.error _, config) => (Except.ok (), config)
  | (Except.ok _, config) => (Except.ok (), config)

/-- The configuration variable after a series of loads, one per query result. -/
def cargasSucesivas (cargar : Respuesta Config → Config → Carga Unit)
    (rs : List (Respuesta Config)) (inicial : Config) : Config :=
  rs.foldl (fun config r => (cargar r config).2) inicial


/-! # Theorems -/

/-! ## Decimal digits -/

theorem valorDigitos_eq (ds : List Char) : valorDigitos ds = ds.foldl pasoDigito 0 := rfl

theorem digitChar_valor (d : Nat) (h : d < 10) :
    (Nat.digitChar d).toNat - 48 = d ∧ (Nat.digitChar d).isDigit = true := by
  interval_cases d <;> decide

theorem isDigit_rango (c : Char) (h : c.isDigit = true) : 48 ≤ c.toNat ∧ c.toNat ≤ 57 := by
  simp only [Char.isDigit, Bool.and_eq_true, decide_eq_true_eq] at h
  obtain ⟨h1, h2⟩ := h
  have h1 : (48 : UInt32).toNat ≤ c.val.toNat := h1
  have h2 : c.val.toNat ≤ (57 : UInt32).toNat := h2
  exact ⟨h1, h2⟩

theorem toDigitsCore_spec (n : Nat) : ∀ (fuel : Nat) (ds : List Char), n < fuel →
    ∃ xs : List Char, Nat.toDigitsCore 10 fuel n ds = xs ++ ds ∧ xs ≠ [] ∧
      (∀ c ∈ xs, c.isDigit = true) ∧ ∀ a, xs.foldl pasoDigito a = a * 10 ^ xs.length + n := by
  induction n using Nat.strong_induction_on with
  | _ n ih =>
    intro fuel ds hf
    obtain ⟨fuel, rfl⟩ : ∃ k, fuel = k + 1 := ⟨fuel - 1, by omega⟩
    have hd := digitChar_valor (n % 10) (Nat.mod_lt _ (by decide))
    by_cases h0 : n / 10 = 0
    · refine ⟨[Nat.digitChar (n % 10)], ?_, by simp, ?_, ?_⟩
      · simp [Nat.toDigitsCore, h0]
      · intro c hc
        simp only [List.mem_singleton] at hc
        rw [hc]; exact hd.2
      · intro a
        simp only [List.foldl_cons, List.foldl_nil, pasoDigito, hd.1, List.length_singleton]
        omega
    · obtain ⟨xs, hxs, -, hdig, hval⟩ :=
        ih (n / 10) (by omega) fuel (Nat.digitChar (n % 10) :: ds) (by omega)
      refine ⟨xs ++ [Nat.digitChar (n % 10)], ?_, by simp, ?_, ?_⟩
      · simp [Nat.toDigitsCore, h0, hxs]
      · intro c hc
        rcases List.mem_append.1 hc with hc | hc
        · exact hdig c hc
        · simp only [List.mem_singleton] at hc
          rw [hc]; exact hd.2
      · intro a
        simp only [List.foldl_append, List.foldl_cons, List.foldl_nil, hval, pasoDigito, hd.1,
          List.length_append, List.length_singleton, pow_succ]
        have := Nat.div_add_mod n 10
        nlinarith [this]

theorem toDigits_spec (n : Nat) :
    Nat.toDigits 10 n ≠ [] ∧ (∀ c ∈ Nat.toDigits 10 n, c.isDigit = true) ∧
      valorDigitos (Nat.toDigits 10 n) = n := by
  obtain ⟨xs, hxs, hne, hdig, hval⟩ := toDigitsCore_spec n (n + 1) [] (Nat.lt_succ_self n)
  have hx : Nat.toDigits 10 n = xs := by simpa [Nat.toDigits] using hxs
  rw [hx]
  exact ⟨hne, hdig, by rw [valorDigitos_eq, hval 0]; simp⟩

theorem valorDigitos_ceros (k : Nat) (ds : List Char) :
    valorDigitos (List.replicate k '0' ++ ds) = valorDigitos ds := by
  induction k with
  | zero => simp
  | succ k ih =>
    rw [valorDigitos_eq] at ih ⊢
    rw [List.replicate_succ, List.cons_append, List.foldl_cons]
    exact ih

theorem redondearDoble_exacto (n : Nat) (h : n ≤ 2 ^ 53) : redondearDoble n = n := by
  unfold redondearDoble
  exact if_pos h

theorem aNumero_exacto (n : Nat) (h : n ≤ 2 ^ 53) : aNumero false n = JSNum.num (n : Int) := by
  have hpot : (2 : Nat) ^ 53 < 2 ^ 1024 := Nat.pow_lt_pow_right (by decide) (by decide)
  have h2 : ¬ (2 ^ 1024 ≤ n) := Nat.not_le.2 (Nat.lt_of_le_of_lt h hpot)
  unfold aNumero
  simp only [redondearDoble_exacto n h, if_neg h2]
  rfl

theorem textoNatural_exacto (n : Nat) (h : n ≤ 2 ^ 53) : textoNatural n = Nat.repr n := by
  unfold textoNatural
  exact if_pos h

theorem parseInt_digitos (ds : List Char) (hne : ds ≠ [])
    (hdig : ∀ c ∈ ds, c.isDigit = true) (hcota : valorDigitos ds ≤ 2 ^ 53) :
    parseInt (String.mk ds) = JSNum.num (valorDigitos ds) := by
  obtain ⟨c, r, rfl⟩ : ∃ c r, ds = c :: r := by
    cases ds with
    | nil => exact absurd rfl hne
    | cons c r => exact ⟨c, r, rfl⟩
  have hc := isDigit_rango c (hdig c (List.mem_cons_self c r))
  have hws : isStrWhiteSpace c = false := by
    simp only [isStrWhiteSpace, Bool.or_eq_false_iff, Bool.and_eq_false_iff,
      decide_eq_false_iff_not]
    omega
  have hmenos : c ≠ '-' := by
    intro h; rw [h] at hc; revert hc; decide
  have hmas : c ≠ '+' := by
    intro h; rw [h] at hc; revert hc; decide
  have htake : (c :: r).takeWhile Char.isDigit = c :: r :=
    List.takeWhile_eq_self_iff.2 hdig
  have hsigno : leerSigno (c :: r) = (false, c :: r) := by
    unfold leerSigno
    split
    · rename_i h; exact absurd (List.cons.inj h).1 hmenos
    · rename_i h; exact absurd (List.cons.inj h).1 hmas
    · rfl
  have hdrop : (c :: r).dropWhile isStrWhiteSpace = c :: r := by
    simp [List.dropWhile_cons, hws]
  simp only [parseInt, hdrop, hsigno, htake, aNumero_exacto _ hcota]
  simp

theorem repr_eq (n : Nat) : Nat.repr n = String.mk (Nat.toDigits 10 n) := rfl

theorem codigo_data (L : Char) (s : String) : (codigo L s).data = L :: s.data := by
  simp [codigo]

theorem substring1_codigo (L : Char) (s : String) : substring1 (codigo L s) = s := by
  simp [substring1, codigo_data]

theorem codigo_ne_vacio (L : Char) (s : String) : codigo L s ≠ "" := by
  intro h
  have := congrArg String.data h
  simp [codigo_data] at this

/-- Digits of a suffix padded to two places: they are digits and keep their value. -/
theorem padStart_repr (n : Nat) :
    ∃ ds : List Char, padStart (Nat.repr n) 2 '0' = String.mk ds ∧ ds ≠ [] ∧
      (∀ c ∈ ds, c.isDigit = true) ∧ valorDigitos ds = n := by
  obtain ⟨hne, hdig, hval⟩ := toDigits_spec n
  unfold padStart
  split
  · exact ⟨Nat.toDigits 10 n, repr_eq n, hne, hdig, hval⟩
  · refine ⟨List.replicate (2 - (Nat.repr n).length) '0' ++ Nat.toDigits 10 n, ?_, ?_, ?_, ?_⟩
    · rw [repr_eq]; rfl
    · simp [hne]
    · intro c hc
      rcases List.mem_append.1 hc with hc | hc
      · rw [(List.mem_replicate.1 hc).2]; decide
      · exact hdig c hc
    · rw [valorDigitos_ceros, hval]

theorem aTexto_masUno (n : Nat) (h : n + 1 ≤ 2 ^ 53) :
    (JSNum.num (n : Int)).masUno.aTexto = Nat.repr (n + 1) := by
  have h1 : decide ((n : Int) + 1 < 0) = false := by
    simp only [decide_eq_false_iff_not]; omega
  have h2 : ((n : Int) + 1).natAbs = n + 1 := by omega
  simp only [JSNum.masUno, h1, h2, aNumero_exacto _ h]
  exact textoNatural_exacto _ h

/-- The next code after a last code whose suffix is a run of digits. -/
theorem generarNuevoTurno_digitos (L : Char) (ds : List Char) (hne : ds ≠ [])
    (hdig : ∀ c ∈ ds, c.isDigit = true) (hcota : valorDigitos ds + 1 ≤ 2 ^ 53)
    (resto : List FilaTurno) :
    generarNuevoTurno L { data := some ({ turno := some (codigo L (String.mk ds)) } :: resto),
                          error := none }
      = codigo L (padStart (Nat.repr (valorDigitos ds + 1)) 2 '0') := by
  simp only [generarNuevoTurno, codigo_ne_vacio, if_false, substring1_codigo,
    parseInt_digitos ds hne hdig (Nat.le_of_succ_le hcota), aTexto_masUno _ hcota]

/-! ## The day letter -/

/-- JavaScript's `((d % 26) + 26) % 26` is the non-negative remainder of `d` modulo 26. -/
theorem tmod_normalizado (d : Int) : Int.tmod (Int.tmod d 26 + 26) 26 = d % 26 := by
  have h : ∃ x : Int, Int.tmod d 26 = x ∧ -26 < x ∧ x < 26 ∧ (x + 26) % 26 = d % 26 := by
    cases d with
    | ofNat m =>
      refine ⟨((m % 26 : Nat) : Int), rfl, ?_, ?_, ?_⟩
      · omega
      · omega
      · have : Int.ofNat m = (m : Int) := rfl
        omega
    | negSucc m =>
      have h0 : Int.negSucc m = -((m : Int) + 1) := Int.negSucc_eq m
      refine ⟨-(((m + 1) % 26 : Nat) : Int), rfl, ?_, ?_, ?_⟩
      · omega
      · omega
      · omega
  obtain ⟨x, hx, h1, h2, h3⟩ := h
  rw [hx, Int.tmod_eq_emod (by omega) (by decide), h3]

theorem fechaBase_valor : fechaBase = 19958 * 86400000 := by decide

theorem msPorDia_valor : msPorDia = 86400000 := by decide

/-- The day letter in closed form: the index is the day count from the epoch modulo 26. -/
theorem obtenerLetraDelDia_indice (t : Int) :
    obtenerLetraDelDia t
      = Char.ofNat (65 + ((fechaUTC t - diasDesdeCivil 2024 8 23) % 26).toNat) := by
  have hd : diasDesdeCivil 2024 8 23 = 19958 := by decide
  have hq : (t - fechaBase) / msPorDia = fechaUTC t - diasDesdeCivil 2024 8 23 := by
    rw [hd, fechaBase_valor, fechaUTC, msPorDia_valor]
    omega
  simp only [obtenerLetraDelDia, hq, tmod_normalizado]

theorem alfabeto_indice : ∀ j : Nat, j < 26 → alfabeto[j]? = some (Char.ofNat (65 + j)) := by
  decide

/-- C2: `obtenerLetraDelDia` depends on the UTC calendar date only. With `d` the number of
days from the epoch 2024-08-23 to the date of the instant, the letter is the one at index
`d mod 26` (non-negative remainder) of `A..Z`; instants of one date share the letter, a date
and the date 26 days later share it, and the epoch, the next day and the 26th day after it
give `A`, `B` and `A`. -/
theorem obtenerLetraDelDia_fecha :
    (∀ t : Int, 0 ≤ (fechaUTC t - diasDesdeCivil 2024 8 23) % 26 ∧
      alfabeto[((fechaUTC t - diasDesdeCivil 2024 8 23) % 26).toNat]?
        = some (obtenerLetraDelDia t)) ∧
    (∀ t1 t2 : Int, fechaUTC t1 = fechaUTC t2 →
      obtenerLetraDelDia t1 = obtenerLetraDelDia t2) ∧
    (∀ t1 t2 : Int, fechaUTC t2 = fechaUTC t1 + 26 →
      obtenerLetraDelDia t2 = obtenerLetraDelDia t1) ∧
    fechaUTC fechaBase = diasDesdeCivil 2024 8 23 ∧
    obtenerLetraDelDia fechaBase = 'A' ∧
    obtenerLetraDelDia (fechaBase + msPorDia) = 'B' ∧
    obtenerLetraDelDia (fechaBase + 26 * msPorDia) = 'A' := by
  refine ⟨?_, ?_, ?_, by decide, by decide, by decide, by decide⟩
  · intro t
    have h0 : 0 ≤ (fechaUTC t - diasDesdeCivil 2024 8 23) % 26 := by omega
    refine ⟨h0, ?_⟩
    rw [obtenerLetraDelDia_indice]
    apply alfabeto_indice
    omega
  · intro t1 t2 h
    rw [obtenerLetraDelDia_indice, obtenerLetraDelDia_indice, h]
  · intro t1 t2 h
    rw [obtenerLetraDelDia_indice, obtenerLetraDelDia_indice, h]
    congr 3
    omega

/-- Two instants of the epoch date and an instant 26 days later all give `A`. -/
theorem obtenerLetraDelDia_fecha_witness :
    obtenerLetraDelDia (fechaBase + 5000) = obtenerLetraDelDia fechaBase ∧
    obtenerLetraDelDia (fechaBase + 26 * msPorDia + 7) = obtenerLetraDelDia fechaBase :=
  ⟨obtenerLetraDelDia_fecha.2.1 _ _ (by decide),
   obtenerLetraDelDia_fecha.2.2.1 _ _ (by decide)⟩

/-! ## The next code -/

/-- C1, amended: for a day letter `L`, `generarNuevoTurno` returns `L01` when its last-code
query returns no row, and when the newest row holds `L` followed by the decimal digits of
`NN` (with or without leading zeros) and `NN + 1` is at most `2^53`, it returns `L` followed
by `NN + 1` in decimal, left-padded with `0` to two digits. -/
theorem generarNuevoTurno_siguiente (L : Char) (_hL : L ∈ alfabeto) :
    (∀ r : Respuesta (List FilaTurno), r.error = none → r.data = some [] →
      generarNuevoTurno L r = codigo L "01") ∧
    (∀ (NN ceros : Nat) (resto : List FilaTurno), NN + 1 ≤ 2 ^ 53 →
      generarNuevoTurno L
        { data := some ({ turno := some (codigo L
            (String.mk (List.replicate ceros '0') ++ Nat.repr NN)) } :: resto),
          error := none }
        = codigo L (padStart (Nat.repr (NN + 1)) 2 '0')) := by
  constructor
  · intro r he hd
    simp [generarNuevoTurno, he, hd]
  · intro NN ceros resto hcota
    obtain ⟨hne, hdig, hval⟩ := toDigits_spec NN
    have hs : String.mk (List.replicate ceros '0') ++ Nat.repr NN
        = String.mk (List.replicate ceros '0' ++ Nat.toDigits 10 NN) := by
      rw [repr_eq]; rfl
    have hv : valorDigitos (List.replicate ceros '0' ++ Nat.toDigits 10 NN) = NN := by
      rw [valorDigitos_ceros, hval]
    rw [hs, generarNuevoTurno_digitos L _ (by simp [hne]) _ (by rw [hv]; exact hcota) resto, hv]
    intro c hc
    rcases List.mem_append.1 hc with hc | hc
    · rw [(List.mem_replicate.1 hc).2]; decide
    · exact hdig c hc

/-- After `A07` comes `A08`, and the first code of a day with letter `A` is `A01`. -/
theorem generarNuevoTurno_siguiente_witness :
    generarNuevoTurno 'A' { data := some [], error := none } = "A01" ∧
    generarNuevoTurno 'A' { data := some [{ turno := some "A07" }], error := none } = "A08" :=
  ⟨(generarNuevoTurno_siguiente 'A' (by decide)).1 _ rfl rfl,
   (generarNuevoTurno_siguiente 'A' (by decide)).2 7 1 [] (by decide)⟩

/-- C1 as stated fails at `NN = 2^53 = 9007199254740992`: `parseInt` reads the suffix
exactly, the sum `NN + 1` is not a double and rounds back to `NN`, so the code that follows
`A9007199254740992` is `A9007199254740992` again and not `A9007199254740993`. -/
theorem generarNuevoTurno_siguiente_contraejemplo :
    codigo 'A' (Nat.repr 9007199254740992) = "A9007199254740992" ∧
    generarNuevoTurno 'A'
      { data := some [{ turno := some "A9007199254740992" }], error := none }
      = "A9007199254740992" ∧
    codigo 'A' (padStart (Nat.repr (9007199254740992 + 1)) 2 '0') = "A9007199254740993" ∧
    generarNuevoTurno 'A'
      { data := some [{ turno := some "A9007199254740992" }], error := none }
      ≠ codigo 'A' (padStart (Nat.repr (9007199254740992 + 1)) 2 '0') := by
  decide

/-! ## The format of a code -/

theorem alfabeto_isUpper : ∀ c ∈ alfabeto, c.isUpper = true := by decide

theorem padStart_dos_digitos : ∀ m : Nat, m < 100 →
    ∃ d1 d2 : Char, (padStart (Nat.repr m) 2 '0').data = [d1, d2] ∧
      d1.isDigit = true ∧ d2.isDigit = true := by
  intro m hm
  have h : ∀ k : Nat, k < 100 →
      (match (padStart (Nat.repr k) 2 '0').data with
        | [d1, d2] => d1.isDigit && d2.isDigit
        | _ => false) = true := by decide
  have hk := h m hm
  split at hk
  · rename_i d1 d2 heq
    simp only [Bool.and_eq_true] at hk
    exact ⟨d1, d2, heq, hk.1, hk.2⟩
  · exact absurd hk (by decide)

theorem formatoValido_codigo (L : Char) (hL : L ∈ alfabeto) (m : Nat) (hm : m < 100) :
    formatoValido (codigo L (padStart (Nat.repr m) 2 '0')) = true := by
  obtain ⟨d1, d2, hd, h1, h2⟩ := padStart_dos_digitos m hm
  simp [formatoValido, codigo_data, hd, h1, h2, alfabeto_isUpper L hL]

theorem valorDigitos_par (d1 d2 : Char) :
    valorDigitos [d1, d2] = (d1.toNat - 48) * 10 + (d2.toNat - 48) := by
  simp [valorDigitos, pasoDigito]

/-- C4, amended: for a day letter `L`, the code returned by `generarNuevoTurno` is one
uppercase letter followed by exactly two decimal digits in the no-prior-code case and for
every last code `L d1 d2` of that format whose suffix is not `99` (suffixes `00` to `98`). -/
theorem generarNuevoTurno_formato (L : Char) (hL : L ∈ alfabeto) :
    (∀ r : Respuesta (List FilaTurno), r.error = none → r.data = some [] →
      formatoValido (generarNuevoTurno L r) = true) ∧
    (∀ (d1 d2 : Char) (resto : List FilaTurno), d1.isDigit = true → d2.isDigit = true →
      ¬ (d1 = '9' ∧ d2 = '9') →
      formatoValido (String.mk [L, d1, d2]) = true ∧
      formatoValido (generarNuevoTurno L
        { data := some ({ turno := some (String.mk [L, d1, d2]) } :: resto),
          error := none }) = true) := by
  have hup := alfabeto_isUpper L hL
  constructor
  · intro r he hd
    have h01 : generarNuevoTurno L r = codigo L (padStart (Nat.repr 1) 2 '0') := by
      simp [generarNuevoTurno, he, hd]; rfl
    rw [h01]
    exact formatoValido_codigo L hL 1 (by decide)
  · intro d1 d2 resto h1 h2 h99
    constructor
    · simp [formatoValido, hup, h1, h2]
    · have hcod : String.mk [L, d1, d2] = codigo L (String.mk [d1, d2]) := rfl
      have hdig : ∀ c ∈ [d1, d2], c.isDigit = true := by
        intro c hc
        simp only [List.mem_cons, List.mem_singleton, List.not_mem_nil, or_false] at hc
        rcases hc with rfl | rfl
        · exact h1
        · exact h2
      have r1 := isDigit_rango d1 h1
      have r2 := isDigit_rango d2 h2
      have hpar := valorDigitos_par d1 d2
      have hcota : valorDigitos [d1, d2] + 1 ≤ 2 ^ 53 :=
        Nat.le_trans (show valorDigitos [d1, d2] + 1 ≤ 100 by omega) (by decide)
      rw [hcod, generarNuevoTurno_digitos L [d1, d2] (by simp) hdig hcota resto]
      apply formatoValido_codigo L hL
      rw [valorDigitos_par]
      have hne : ¬ (d1.toNat = 57 ∧ d2.toNat = 57) := by
        rintro ⟨e1, e2⟩
        apply h99
        constructor
        · rw [← Char.ofNat_toNat d1, e1]
        · rw [← Char.ofNat_toNat d2, e2]
      omega

/-- After `A98` comes `A99`, and both have the format. -/
theorem generarNuevoTurno_formato_witness :
    formatoValido "A98" = true ∧
    formatoValido (generarNuevoTurno 'A'
      { data := some [{ turno := some "A98" }], error := none }) = true :=
  (generarNuevoTurno_formato 'A' (by decide)).2 '9' '8' [] (by decide) (by decide) (by decide)

/-- C4 as stated fails at suffix `99`: the last code `A99` has the format and the code that
follows it is `A100`, which has three digits. -/
theorem generarNuevoTurno_formato_contraejemplo :
    formatoValido "A99" = true ∧
    generarNuevoTurno 'A' { data := some [{ turno := some "A99" }], error := none } = "A100" ∧
    formatoValido (generarNuevoTurno 'A'
      { data := some [{ turno := some "A99" }], error := none }) = false := by
  decide

/-! ## Sequential creations -/

theorem fechaUTC_inicioDia (dia : Int) : fechaUTC (dia * msPorDia) = dia := by
  rw [fechaUTC, msPorDia_valor]; omega

theorem obtenerLetraDelDia_dia (t dia : Int) (h : fechaUTC t = dia) :
    obtenerLetraDelDia t = obtenerLetraDelDia (dia * msPorDia) := by
  rw [obtenerLetraDelDia_indice, obtenerLetraDelDia_indice, fechaUTC_inicioDia, h]

theorem empiezaCon_codigo (L : Char) (s : String) : empiezaCon L (codigo L s) = true := by
  simp [empiezaCon, codigo_data]

/-- The code that follows the padded code number `k`. -/
theorem generarNuevoTurno_tras (L : Char) (k : Nat) (hcota : k + 1 ≤ 2 ^ 53) :
    generarNuevoTurno L
      { data := some [{ turno := some (codigo L (padStart (Nat.repr k) 2 '0')) }],
        error := none }
      = codigo L (padStart (Nat.repr (k + 1)) 2 '0') := by
  obtain ⟨ds, hds, hne, hdig, hval⟩ := padStart_repr k
  rw [hds, generarNuevoTurno_digitos L ds hne hdig (by rw [hval]; exact hcota) [], hval]

/-- The suffix of the padded code number `k` reads back as `k`. -/
theorem parseInt_sufijo (L : Char) (k : Nat) (hcota : k ≤ 2 ^ 53) :
    parseInt (substring1 (codigo L (padStart (Nat.repr k) 2 '0'))) = JSNum.num (k : Int) := by
  obtain ⟨ds, hds, hne, hdig, hval⟩ := padStart_repr k
  rw [substring1_codigo, hds, parseInt_digitos ds hne hdig (by rw [hval]; exact hcota), hval]

/-- The last-code query right after an insert whose instant is not before any row of the
day returns the inserted code. -/
theorem consultaUltimoTurno_tras_insertar (tabla : Tabla) (nueva : Turno) (dia : Int)
    (L : Char) (hf : nueva.fecha = dia) (hL : empiezaCon L nueva.turno = true)
    (hrec : ∀ r ∈ tabla, r.fecha = dia → r.created_at ≤ nueva.created_at) :
    consultaUltimoTurno (nueva :: tabla) dia L
      = { data := some [{ turno := some nueva.turno }], error := none } := by
  have hfil : List.filter (fun r => r.fecha = dia && empiezaCon L r.turno) (nueva :: tabla)
      = nueva :: List.filter (fun r => r.fecha = dia && empiezaCon L r.turno) tabla := by
    simp [List.filter_cons, hf, hL]
  have hsort : ordenarPorCreacionDesc
      (nueva :: List.filter (fun r => r.fecha = dia && empiezaCon L r.turno) tabla)
      = nueva :: ordenarPorCreacionDesc
          (List.filter (fun r => r.fecha = dia && empiezaCon L r.turno) tabla) := by
    apply List.insertionSort_cons
    intro b hb
    have hb2 := List.mem_filter.1 hb
    simp only [Bool.and_eq_true, decide_eq_true_eq] at hb2
    exact hrec b hb2.1 hb2.2.1
  simp only [consultaUltimoTurno, hfil, hsort, List.take_succ_cons, List.take_zero, soloTurno,
    List.map_cons, List.map_nil]

theorem crearTurnos_desde (dia : Int) (qs : List Solicitud) :
    ∀ (tabla : Tabla) (k0 : Nat),
      k0 + qs.length + 1 ≤ 2 ^ 53 →
      (∀ r ∈ tabla, r.fecha = dia → ∀ q ∈ qs, r.created_at < q.ahora) →
      (∀ q ∈ qs, fechaUTC q.ahora = dia) →
      qs.Pairwise (fun a b => a.ahora < b.ahora) →
      generarNuevoTurno (obtenerLetraDelDia (dia * msPorDia))
          (consultaUltimoTurno tabla dia (obtenerLetraDelDia (dia * msPorDia)))
        = codigo (obtenerLetraDelDia (dia * msPorDia)) (padStart (Nat.repr (k0 + 1)) 2 '0') →
      (crearTurnos qs tabla).1 = (List.range qs.length).map (fun i =>
          codigo (obtenerLetraDelDia (dia * msPorDia))
            (padStart (Nat.repr (k0 + i + 1)) 2 '0')) ∧
      (((crearTurnos qs tabla).2.filter (fun r => r.fecha = dia)).map (fun r => r.turno)
        = (crearTurnos qs tabla).1.reverse
            ++ (tabla.filter (fun r => r.fecha = dia)).map (fun r => r.turno)) := by
  induction qs with
  | nil => intro tabla k0 _ _ _ _ _; simp [crearTurnos]
  | cons q qs ih =>
    intro tabla k0 hcota hrec hdia hord hgen
    have hcota2 : k0 + 1 + qs.length + 1 ≤ 2 ^ 53 := by
      rw [List.length_cons] at hcota
      have e : k0 + 1 + qs.length + 1 = k0 + (qs.length + 1) + 1 := by omega
      rw [e]; exact hcota
    have hcota3 : k0 + 1 + 1 ≤ 2 ^ 53 :=
      Nat.le_trans (show k0 + 1 + 1 ≤ k0 + 1 + qs.length + 1 by omega) hcota2
    have hq : fechaUTC q.ahora = dia := hdia q (List.mem_cons_self q qs)
    have hletra := obtenerLetraDelDia_dia q.ahora dia hq
    have hc : generarNuevoTurnoEn q.ahora tabla
        = codigo (obtenerLetraDelDia (dia * msPorDia))
            (padStart (Nat.repr (k0 + 1)) 2 '0') := by
      rw [generarNuevoTurnoEn, hletra, hq, hgen]
    obtain ⟨hq_lt, hord2⟩ := List.pairwise_cons.1 hord
    have hih := ih (crearTurno q.ahora q.nombre q.telefono q.servicio q.orden tabla) (k0 + 1)
      hcota2
      (by
        intro r hr hrf q2 hq2
        rcases List.mem_cons.1 hr with rfl | hr
        · exact hq_lt q2 hq2
        · exact hrec r hr hrf q2 (List.mem_cons_of_mem q hq2))
      (fun q2 hq2 => hdia q2 (List.mem_cons_of_mem q hq2)) hord2
      (by
        rw [crearTurno, consultaUltimoTurno_tras_insertar _ _ dia _ hq
          (by simp only [hc]; exact empiezaCon_codigo _ _)
          (fun r hr hrf => le_of_lt (hrec r hr hrf q (List.mem_cons_self q qs)))]
        simp only [hc]
        exact generarNuevoTurno_tras _ _ hcota3)
    constructor
    · simp only [crearTurnos, hih.1, hc, List.length_cons, List.range_succ_eq_map, List.map_cons,
        List.map_map]
      refine congrArg₂ _ rfl (List.map_congr_left ?_)
      intro i _
      simp only [Function.comp, Nat.add_zero]
      congr 3
      omega
    · simp only [crearTurnos, hih.2, List.reverse_cons, List.append_assoc]
      congr 1
      simp [crearTurno, List.filter_cons, hq, hc]

theorem codigo_numerado_inyectivo (L : Char) :
    Function.Injective (fun i : Nat => codigo L (padStart (Nat.repr (0 + i + 1)) 2 '0')) := by
  intro i j h
  have h2 := congrArg (fun c => valorDigitos (substring1 c).data) h
  obtain ⟨di, hdi, -, -, hvi⟩ := padStart_repr (0 + i + 1)
  obtain ⟨dj, hdj, -, -, hvj⟩ := padStart_repr (0 + j + 1)
  simp only [substring1_codigo, hdi, hdj, hvi, hvj] at h2
  omega

/-- Strictly increasing instants of one UTC day: there are at most as many as the day has
milliseconds. -/
theorem solicitudes_de_un_dia (qs : List Solicitud) (dia : Int)
    (hdia : ∀ q ∈ qs, fechaUTC q.ahora = dia)
    (hord : qs.Pairwise (fun a b => a.ahora < b.ahora)) : qs.length ≤ 86400000 := by
  have hpar : (qs.map (fun q => q.ahora)).Pairwise (fun a b => a < b) :=
    List.pairwise_map.2 hord
  have hnodup : (qs.map (fun q => q.ahora)).Nodup := hpar.imp (fun h => ne_of_lt h)
  have hsub : (qs.map (fun q => q.ahora)).toFinset
      ⊆ Finset.Ico (dia * 86400000) (dia * 86400000 + 86400000) := by
    intro t ht
    rw [List.mem_toFinset, List.mem_map] at ht
    obtain ⟨q, hq, rfl⟩ := ht
    have := hdia q hq
    rw [fechaUTC, msPorDia_valor] at this
    rw [Finset.mem_Ico]
    omega
  have hcard := Finset.card_le_card hsub
  rw [List.toFinset_card_of_nodup hnodup, Int.card_Ico, List.length_map] at hcard
  have e : (dia * 86400000 + 86400000 - dia * 86400000).toNat = 86400000 := by
    have : dia * 86400000 + 86400000 - dia * 86400000 = 86400000 := by ring
    rw [this]; rfl
  rw [e] at hcard
  exact hcard

/-- C3: `n` sequential ticket creations on one UTC day, each one running
`generarNuevoTurno` against the table and then inserting the returned code, starting from a
table with no ticket of that day and at strictly increasing instants: the `k`-th code
(counting from 1) is the day letter followed by `k` padded to two digits and its numeric
suffix reads back as `k`; the codes handed out are pairwise distinct and they are exactly the
codes the table holds for that day. -/
theorem crearTurnos_sufijos (tabla : Tabla) (qs : List Solicitud) (dia : Int)
    (hvacio : ∀ r ∈ tabla, r.fecha ≠ dia)
    (hdia : ∀ q ∈ qs, fechaUTC q.ahora = dia)
    (hord : qs.Pairwise (fun a b => a.ahora < b.ahora)) :
    (crearTurnos qs tabla).1.length = qs.length ∧
    (∀ k : Nat, k < qs.length →
      ∃ c : String, (crearTurnos qs tabla).1[k]? = some c ∧
        c = codigo (obtenerLetraDelDia (dia * msPorDia)) (padStart (Nat.repr (k + 1)) 2 '0') ∧
        parseInt (substring1 c) = JSNum.num ((k : Int) + 1)) ∧
    (crearTurnos qs tabla).1.Nodup ∧
    ((crearTurnos qs tabla).2.filter (fun r => r.fecha = dia)).map (fun r => r.turno)
      = (crearTurnos qs tabla).1.reverse := by
  have hfil : tabla.filter (fun r => r.fecha = dia) = [] := by
    apply List.filter_eq_nil_iff.2
    intro r hr
    simpa using hvacio r hr
  have hbase : consultaUltimoTurno tabla dia (obtenerLetraDelDia (dia * msPorDia))
      = { data := some [], error := none } := by
    have : tabla.filter (fun r => r.fecha = dia
        && empiezaCon (obtenerLetraDelDia (dia * msPorDia)) r.turno) = [] := by
      apply List.filter_eq_nil_iff.2
      intro r hr
      simp [hvacio r hr]
    simp [consultaUltimoTurno, this, ordenarPorCreacionDesc, soloTurno]
  have hlargo := solicitudes_de_un_dia qs dia hdia hord
  have hcota : 0 + qs.length + 1 ≤ 2 ^ 53 :=
    Nat.le_trans (show 0 + qs.length + 1 ≤ 86400001 by omega) (by decide)
  obtain ⟨hcods, htabla⟩ := crearTurnos_desde dia qs tabla 0 hcota
    (fun r hr hrf => absurd hrf (hvacio r hr)) hdia hord (by rw [hbase]; rfl)
  refine ⟨?_, ?_, ?_, ?_⟩
  · rw [hcods]; simp
  · intro k hk
    refine ⟨_, ?_, rfl, ?_⟩
    · rw [hcods, List.getElem?_map, List.getElem?_range hk]
      simp
    · have := parseInt_sufijo (obtenerLetraDelDia (dia * msPorDia)) (k + 1)
        (Nat.le_trans (show k + 1 ≤ 86400001 by omega) (by decide))
      rw [this]; push_cast; rfl
  · rw [hcods]
    exact (List.nodup_range _).map (codigo_numerado_inyectivo _)
  · rw [htabla, hfil]; simp

/-- Three creations on the epoch date into an empty table. -/
theorem crearTurnos_sufijos_witness :
    (crearTurnos solicitudesEjemplo []).1.length = 3 ∧
    (crearTurnos solicitudesEjemplo []).1.Nodup :=
  have h := crearTurnos_sufijos [] solicitudesEjemplo 19958
    (by decide) (by decide) (by decide)
  ⟨h.1, h.2.2.1⟩

/-! ## Conditioned transitions -/

theorem actualizar_sin_coincidencias (filtro : Turno → Bool) (cambio : Turno → Turno)
    (tabla : Tabla) (h : ∀ r ∈ tabla, filtro r = false) :
    filasAfectadas filtro tabla = 0 ∧ actualizar filtro cambio tabla = tabla := by
  constructor
  · simp only [filasAfectadas, List.length_eq_zero]
    apply List.filter_eq_nil_iff.2
    intro r hr
    simp [h r hr]
  · simp only [actualizar]
    conv_rhs => rw [← List.map_id tabla]
    apply List.map_congr_left
    intro r hr
    simp [h r hr]

theorem filtroAtender_tras_atender (ta : Turno) (ahora : Int) (tabla : Tabla) :
    ∀ r ∈ atenderAhora (some ta) ahora tabla, filtroAtender ta r = false := by
  intro r hr
  simp only [atenderAhora, actualizar, List.mem_map] at hr
  obtain ⟨r0, _, rfl⟩ := hr
  by_cases h : filtroAtender ta r0 = true
  · rw [if_pos h]
    simp only [filtroAtender, Bool.and_eq_false_iff, decide_eq_false_iff_not]
    right
    decide
  · rw [if_neg h]
    simpa using h

/-- C5: the update of `atenderAhora` is conditioned on the prior state. It rewrites a row
exactly when the row's id is `turnoActual.id` and its state is `En espera`, setting state
`En atención` and `started_at`, and leaves every other row as it was; when no row with that
id is `En espera`, zero rows are affected and the table is unchanged. A second attempt on the
same ticket affects zero rows and leaves the table, `started_at` included, as the first
attempt left it, and when the id names one row and that row is `En espera` the first attempt
affects exactly one row. Without a current ticket nothing is updated. -/
theorem atenderAhora_condicionado (tabla : Tabla) (turnoActual : Turno) (ahora : Int) :
    (atenderAhora (some turnoActual) ahora tabla).length = tabla.length ∧
    (∀ (i : Nat) (r : Turno), tabla[i]? = some r →
      (atenderAhora (some turnoActual) ahora tabla)[i]?
        = some (if r.id = turnoActual.id ∧ r.estado = "En espera"
            then { r with estado := "En atención", started_at := some ahora } else r)) ∧
    ((∀ r ∈ tabla, r.id = turnoActual.id → r.estado ≠ "En espera") →
      filasAfectadas (filtroAtender turnoActual) tabla = 0 ∧
      atenderAhora (some turnoActual) ahora tabla = tabla) ∧
    (∀ despues : Int,
      filasAfectadas (filtroAtender turnoActual) (atenderAhora (some turnoActual) ahora tabla) = 0 ∧
      atenderAhora (some turnoActual) despues (atenderAhora (some turnoActual) ahora tabla)
        = atenderAhora (some turnoActual) ahora tabla) ∧
    ((tabla.filter (fun r => r.id = turnoActual.id)).length = 1 →
      (∃ r ∈ tabla, r.id = turnoActual.id ∧ r.estado = "En espera") →
      filasAfectadas (filtroAtender turnoActual) tabla = 1) ∧
    atenderAhora none ahora tabla = tabla := by
  refine ⟨?_, ?_, ?_, ?_, ?_, rfl⟩
  · simp [atenderAhora, actualizar]
  · intro i r hi
    simp only [atenderAhora, actualizar, List.getElem?_map, hi, Option.map_some', filtroAtender,
      Bool.and_eq_true, decide_eq_true_eq]
  · intro h
    apply actualizar_sin_coincidencias
    intro r hr
    simp only [filtroAtender, Bool.and_eq_false_iff, decide_eq_false_iff_not]
    by_cases hid : r.id = turnoActual.id
    · exact Or.inr (h r hr hid)
    · exact Or.inl hid
  · intro despues
    exact actualizar_sin_coincidencias _ _ _ (filtroAtender_tras_atender turnoActual ahora tabla)
  · intro huno hex
    obtain ⟨r, hr, hid, hest⟩ := hex
    obtain ⟨r0, hr0⟩ := List.length_eq_one.1 huno
    have hmem : r ∈ tabla.filter (fun r => r.id = turnoActual.id) :=
      List.mem_filter.2 ⟨hr, by simpa using hid⟩
    rw [hr0, List.mem_singleton] at hmem
    have hff : tabla.filter (filtroAtender turnoActual)
        = (tabla.filter (fun r => r.id = turnoActual.id)).filter
            (fun r => r.estado = "En espera") := by
      rw [List.filter_filter]
      apply List.filter_congr
      intro x _
      simp [filtroAtender, Bool.and_comm]
    rw [filasAfectadas, hff, hr0, ← hmem]
    simp [hest]

/-- A waiting ticket is called twice: the first call moves it, the second changes nothing. -/
theorem atenderAhora_condicionado_witness :
    filasAfectadas (filtroAtender turnoEjemplo) [turnoEjemplo] = 1 ∧
    atenderAhora (some turnoEjemplo) 2000 [turnoEjemplo]
      = [{ turnoEjemplo with estado := "En atención", started_at := some 2000 }] ∧
    atenderAhora (some turnoEjemplo) 9000 (atenderAhora (some turnoEjemplo) 2000 [turnoEjemplo])
      = atenderAhora (some turnoEjemplo) 2000 [turnoEjemplo] :=
  have h := atenderAhora_condicionado [turnoEjemplo] turnoEjemplo 2000
  ⟨h.2.2.2.2.1 (by decide) ⟨turnoEjemplo, by decide, by decide, by decide⟩,
   by decide, (h.2.2.2.1 9000).2⟩

/-! ## Cancellation -/

/-- C6: the update of `cancelarTurno` filters on code and phone only, not on the state. A
ticket in service and a served ticket whose code and phone match the request both end up
`Cancelado`, so the transition is not restricted to `En espera`. -/
theorem cancelarTurno_sin_condicion :
    cancelarTurno turnoEjemplo "8095550101"
        [{ turnoEjemplo with estado := "En atención", started_at := some 1724371300000 },
         { turnoEjemplo with id := 2, estado := "Atendido", fecha := 19932,
                             started_at := some 1722124900000 }]
      = [{ turnoEjemplo with estado := "Cancelado", started_at := some 1724371300000 },
         { turnoEjemplo with id := 2, estado := "Cancelado", fecha := 19932,
                             started_at := some 1722124900000 }] := by
  decide

/-! ## Queue position -/

theorem findIndexDesde_encontrado {α : Type} (p : α → Bool) :
    ∀ (xs : List α) (k i : Nat) (x : α), xs[i]? = some x → p x = true →
      (∀ (j : Nat) (y : α), j < i → xs[j]? = some y → p y = false) →
      findIndexDesde p k xs = ((k + i : Nat) : Int) := by
  intro xs
  induction xs with
  | nil => intro k i x h; simp at h
  | cons a l ih =>
    intro k i x h hp hantes
    cases i with
    | zero =>
      simp only [List.getElem?_cons_zero, Option.some.injEq] at h
      simp [findIndexDesde, h, hp]
    | succ i =>
      have ha : p a = false := hantes 0 a (Nat.succ_pos i) (by simp)
      simp only [List.getElem?_cons_succ] at h
      have := ih (k + 1) i x h hp (fun j y hj hy => hantes (j + 1) y (by omega) (by simpa using hy))
      simp only [findIndexDesde, ha, Bool.false_eq_true, if_false, this]
      congr 1
      omega

theorem findIndexDesde_ausente {α : Type} (p : α → Bool) :
    ∀ (xs : List α) (k : Nat), (∀ x ∈ xs, p x = false) → findIndexDesde p k xs = -1 := by
  intro xs
  induction xs with
  | nil => intro k _; rfl
  | cons a l ih =>
    intro k h
    have ha : p a = false := h a (List.mem_cons_self a l)
    simp only [findIndexDesde, ha, Bool.false_eq_true, if_false]
    exact ih (k + 1) (fun x hx => h x (List.mem_cons_of_mem a hx))

/-- C7: on the ordered list of waiting rows its query returns, `obtenerPosicionEnFila`
returns the zero-based index of the first row whose code is `c`; when the codes of the list
are distinct that is the index of the one row with code `c`, which is the number of rows
before it; and it returns `-1` when no row has code `c`. -/
theorem obtenerPosicionEnFila_indice (filas : List FilaTurno) (c : String) :
    (∀ i : Nat, filas[i]? = some { turno := some c } →
      (∀ j : Nat, j < i → filas[j]? ≠ some { turno := some c }) →
      obtenerPosicionEnFila c { data := some filas, error := none } = (i : Int)) ∧
    (∀ i : Nat, filas[i]? = some { turno := some c } →
      (filas.map (fun f => f.turno)).Nodup →
      obtenerPosicionEnFila c { data := some filas, error := none } = (i : Int) ∧
      obtenerPosicionEnFila c { data := some filas, error := none }
        = ((filas.take i).length : Int)) ∧
    ((∀ f ∈ filas, f.turno ≠ some c) →
      obtenerPosicionEnFila c { data := some filas, error := none } = -1) := by
  have hprimero : ∀ i : Nat, filas[i]? = some { turno := some c } →
      (∀ j : Nat, j < i → filas[j]? ≠ some { turno := some c }) →
      obtenerPosicionEnFila c { data := some filas, error := none } = (i : Int) := by
    intro i hi hantes
    have := findIndexDesde_encontrado (fun t : FilaTurno => decide (t.turno = some c))
      filas 0 i _ hi (by simp)
      (by
        intro j y hj hy
        simp only [decide_eq_false_iff_not]
        intro hc
        apply hantes j hj
        rw [hy]
        cases y
        simp only at hc
        rw [hc])
    simpa [obtenerPosicionEnFila, findIndex] using this
  refine ⟨hprimero, ?_, ?_⟩
  · intro i hi hnodup
    have hlen : i < filas.length := by
      by_contra hge
      rw [List.getElem?_eq_none (by omega)] at hi
      exact absurd hi (by simp)
    have hpos := hprimero i hi (by
      intro j hj hjc
      have hne := List.nodup_iff_getElem?_ne_getElem?.1 hnodup j i hj (by simpa using hlen)
      apply hne
      simp [List.getElem?_map, hi, hjc])
    refine ⟨hpos, ?_⟩
    rw [hpos, List.length_take, Nat.min_eq_left (Nat.le_of_lt hlen)]
  · intro h
    have := findIndexDesde_ausente (fun t : FilaTurno => decide (t.turno = some c)) filas 0
      (by intro x hx; simpa using h x hx)
    simpa [obtenerPosicionEnFila, findIndex] using this

/-- In the waiting list `A01, A03, A02` the ticket `A03` has position 1 and `B01` has none. -/
theorem obtenerPosicionEnFila_indice_witness :
    obtenerPosicionEnFila "A03"
      { data := some [{ turno := some "A01" }, { turno := some "A03" }, { turno := some "A02" }],
        error := none } = 1 ∧
    obtenerPosicionEnFila "B01"
      { data := some [{ turno := some "A01" }, { turno := some "A03" }, { turno := some "A02" }],
        error := none } = -1 :=
  ⟨((obtenerPosicionEnFila_indice _ "A03").2.1 1 rfl (by decide)).1,
   (obtenerPosicionEnFila_indice _ "B01").2.2 (by decide)⟩

/-- C8: the query of `obtenerPosicionEnFila` orders the waiting tickets by `created_at` alone
and takes them from every date. On the waiting queue `A01 (orden 1)`, `A03 (orden 2)`,
`A02 (orden 3)`, created in the order `A01, A02, A03`, the estimator and the admin list order
it `A01, A03, A02`, yet the position of `A03` is 2; and a waiting ticket left from an earlier
date has position 0 and moves `A01` to position 1. -/
theorem posicionEnFila_otro_orden :
    (consultaCola colaEjemplo).map (fun r => r.turno) = ["A01", "A03", "A02"] ∧
    (consultaEsperaAdmin colaEjemplo 19958).map (fun r => r.turno) = ["A01", "A03", "A02"] ∧
    posicionEnFila "A03" colaEjemplo = 2 ∧
    (consultaEsperaAdmin (turnoAnterior :: colaEjemplo) 19958).map (fun r => r.turno)
      = ["A01", "A03", "A02"] ∧
    posicionEnFila "Z07" (turnoAnterior :: colaEjemplo) = 0 ∧
    posicionEnFila "A01" (turnoAnterior :: colaEjemplo) = 1 := by
  decide

/-! ## Estimated wait -/

/-- C9: `calcularTiempoEstimadoTotal` returns `0` for every instant, target and table,
because nothing is ever added to `tiempoTotal`. On the table of 2024-08-23 at 00:10 UTC the
in-service query finds `A00`, ten minutes into its service, and the waiting queue is `A01`,
`A03`, `A02`, so two tickets are ahead of `A02`; the estimate for `A02` is `0` all the
same. -/
theorem calcularTiempoEstimadoTotal_cero :
    (∀ (ahora : Int) (turnoObjetivo : Option String) (tabla : Tabla),
      calcularTiempoEstimadoTotal ahora turnoObjetivo tabla = 0) ∧
    (consultaEnAtencion salaEjemplo (fechaUTC 1724371800000)).map
        (fun r => (r.turno, r.servicio, r.started_at))
      = [("A00", "Corte", some 1724371200000)] ∧
    (consultaCola salaEjemplo).map (fun r => (r.turno, r.servicio))
      = [("A01", "Corte"), ("A03", "Corte"), ("A02", "Barba")] ∧
    calcularTiempoEstimadoTotal 1724371800000 (some "A02") salaEjemplo = 0 := by
  refine ⟨?_, by decide, by decide, by decide⟩
  intro ahora turnoObjetivo tabla
  simp only [calcularTiempoEstimadoTotal, ite_self]
  cases consultaEnAtencion tabla (fechaUTC ahora) <;> rfl

/-! ## Operating days -/

theorem getDay_lt (desfaseMin fecha : Int) : getDay desfaseMin fecha < 7 := by
  unfold getDay
  omega

/-- On an array `dias_operacion` the function answers whether the Spanish name of the
weekday of the date is an element of the array; with the built-in default of the customer
client that is every weekday but Sunday; an empty or missing value gives false. -/
theorem verificarDiaLaboralFecha_nombres (configCache : Config) (desfaseMin fecha : Int) :
    (∀ xs : List JSVal, configCache.dias_operacion = DiasOperacion.lista xs →
      (verificarDiaLaboralFecha configCache desfaseMin fecha = true ↔
        ∃ dia : String, diasSemana[getDay desfaseMin fecha]? = some dia ∧ JSVal.str dia ∈ xs)) ∧
    (verificarDiaLaboralFecha configCache0 desfaseMin fecha = true ↔
      getDay desfaseMin fecha ≠ 0) ∧
    (configCache.dias_operacion = DiasOperacion.lista [] ∨
        configCache.dias_operacion = DiasOperacion.ausente →
      verificarDiaLaboralFecha configCache desfaseMin fecha = false) := by
  refine ⟨?_, ?_, ?_⟩
  · intro xs hxs
    simp only [verificarDiaLaboralFecha, hxs]
    cases xs with
    | nil => simp
    | cons x xs =>
      cases hdia : diasSemana[getDay desfaseMin fecha]? with
      | none => simp
      | some dia => simp
  · have hlt := getDay_lt desfaseMin fecha
    have hall : ∀ d : Nat, d < 7 →
        ((match diasSemana[d]? with
          | some dia =>
            [JSVal.str "Lunes", JSVal.str "Martes", JSVal.str "Miércoles", JSVal.str "Jueves",
              JSVal.str "Viernes", JSVal.str "Sábado"].contains (JSVal.str dia)
          | none => false) = true ↔ d ≠ 0) := by decide
    simpa [verificarDiaLaboralFecha, configCache0] using hall _ hlt
  · intro h
    rcases h with h | h <;> simp [verificarDiaLaboralFecha, h]

/-- C10: `verificarDiaLaboralFecha` compares weekday names, so on the operating days
`[1, 2, 3, 4, 5, 6]`, which `turno.js` gives as the default of the same column and labels
Monday to Saturday, it returns false on every date. The customer client loads that row into
`configCache`; Monday 2024-08-26 has weekday 1, which is in the set, and the function
returns false. -/
theorem verificarDiaLaboralFecha_numeros :
    (actualizarConfiguracion { data := some configNegocio0, error := none } configCache0).2
      = configNegocio0 ∧
    configNegocio0.dias_operacion
      = DiasOperacion.lista [JSVal.num 1, JSVal.num 2, JSVal.num 3, JSVal.num 4, JSVal.num 5,
          JSVal.num 6] ∧
    getDay 0 (fechaBase + 3 * msPorDia) = 1 ∧
    diaEnConjunto [JSVal.num 1, JSVal.num 2, JSVal.num 3, JSVal.num 4, JSVal.num 5, JSVal.num 6]
      (getDay 0 (fechaBase + 3 * msPorDia)) = true ∧
    verificarDiaLaboralFecha configNegocio0 0 (fechaBase + 3 * msPorDia) = false ∧
    (∀ desfaseMin fecha : Int,
      verificarDiaLaboralFecha configNegocio0 desfaseMin fecha = false) := by
  refine ⟨rfl, rfl, by decide, by decide, by decide, ?_⟩
  intro desfaseMin fecha
  have hlt := getDay_lt desfaseMin fecha
  have hall : ∀ d : Nat, d < 7 →
      (match diasSemana[d]? with
        | some dia =>
          [JSVal.num 1, JSVal.num 2, JSVal.num 3, JSVal.num 4, JSVal.num 5,
            JSVal.num 6].contains (JSVal.str dia)
        | none => false) = false := by decide
  simpa [verificarDiaLaboralFecha, configNegocio0] using hall _ hlt

/-! ## Failed lookups -/

/-- C11, amended: when the query reports an error or no data, `obtenerPosicionEnFila`
returns `0` and `generarNuevoTurno` returns the day letter followed by `01`. These are the
values of a successful query too: `0` is the position of the ticket at the head of the list
and `L01` is the code returned when the day has no ticket yet. The failure value differs
only from the not-found sentinel `-1`. -/
theorem consulta_fallida_valor (c : String) (L : Char) (r : Respuesta (List FilaTurno))
    (h : r.error ≠ none ∨ r.data = none) :
    obtenerPosicionEnFila c r = 0 ∧
    generarNuevoTurno L r = codigo L "01" ∧
    (∀ resto : List FilaTurno,
      obtenerPosicionEnFila c { data := some ({ turno := some c } :: resto), error := none }
        = obtenerPosicionEnFila c r) ∧
    generarNuevoTurno L { data := some [], error := none } = generarNuevoTurno L r ∧
    obtenerPosicionEnFila c r ≠ -1 := by
  have hpos : obtenerPosicionEnFila c r = 0 := by
    obtain ⟨data, error⟩ := r
    cases error with
    | some e => rfl
    | none =>
      rcases h with h | h
      · exact absurd rfl h
      · simp only at h
        subst h
        rfl
  have hgen : generarNuevoTurno L r = codigo L "01" := by
    obtain ⟨data, error⟩ := r
    cases error with
    | some e => rfl
    | none =>
      rcases h with h | h
      · exact absurd rfl h
      · simp only at h
        subst h
        rfl
  refine ⟨hpos, hgen, ?_, ?_, ?_⟩
  · intro resto
    rw [hpos]
    simp [obtenerPosicionEnFila, findIndex, findIndexDesde]
  · rw [hgen]; rfl
  · rw [hpos]; decide

/-- A request that fails with a network error. -/
theorem consulta_fallida_valor_witness :
    obtenerPosicionEnFila "A03" { data := none, error := some "Failed to fetch" } = 0 ∧
    generarNuevoTurno 'A' { data := none, error := some "Failed to fetch" } = "A01" :=
  have h := consulta_fallida_valor "A03" 'A' { data := none, error := some "Failed to fetch" }
    (Or.inr rfl)
  ⟨h.1, h.2.1⟩

/-- C11 as stated fails: the value returned for a failed request is also returned for a
successful one. Position `0` comes back both when the request fails and when `A01` heads
the waiting list, and `A01` comes back both when the request fails and when the day has no
ticket. -/
theorem consulta_fallida_contraejemplo :
    obtenerPosicionEnFila "A01" { data := none, error := some "Failed to fetch" }
      = obtenerPosicionEnFila "A01"
          { data := some [{ turno := some "A01" }, { turno := some "A02" }], error := none } ∧
    generarNuevoTurno 'A' { data := none, error := some "Failed to fetch" }
      = generarNuevoTurno 'A' { data := some [], error := none } := by
  decide

/-! ## Loading the configuration -/

theorem cargarConfiguracion_fallida (r : Respuesta Config) (config : Config)
    (h : fallida r = true) : cargarConfiguracion r config = (Except.ok (), config) := by
  obtain ⟨data, error⟩ := r
  cases error with
  | some e => rfl
  | none =>
    cases data with
    | none => rfl
    | some d => simp [fallida] at h

theorem actualizarConfiguracion_fallida (r : Respuesta Config) (config : Config)
    (h : fallida r = true) : actualizarConfiguracion r config = (Except.ok (), config) := by
  obtain ⟨data, error⟩ := r
  cases error with
  | some e => rfl
  | none =>
    cases data with
    | none => rfl
    | some d => simp [fallida] at h

theorem cargasSucesivas_fallidas (cargar : Respuesta Config → Config → Carga Unit)
    (hcargar : ∀ r config, fallida r = true → (cargar r config).2 = config) :
    ∀ (rs : List (Respuesta Config)) (inicial : Config),
      (∀ r ∈ rs, fallida r = true) → cargasSucesivas cargar rs inicial = inicial := by
  intro rs
  induction rs with
  | nil => intro inicial _; rfl
  | cons r rs ih =>
    intro inicial h
    simp only [cargasSucesivas, List.foldl_cons]
    rw [hcargar r inicial (h r (List.mem_cons_self r rs))]
    exact ih inicial (fun x hx => h x (List.mem_cons_of_mem r hx))

/-- C12: when the configuration query fails or returns no row, loading the configuration
does not raise to its caller and leaves the configuration variable unchanged in both
clients: the admin `cargarConfiguracion` on `configNegocio` and the customer
`actualizarConfiguracion` on `configCache`. Inside the customer load, `obtenerConfig` leaves
`configCache` unchanged too; the error it throws on a reported error is the one that
`actualizarConfiguracion` catches, and on a missing row it returns `null`. After any series
of failed loads from the start the configuration is the built-in default of the client:
opening and closing time, limit 50 and the default operating days. -/
theorem configuracion_fallida (r : Respuesta Config) (config : Config)
    (h : fallida r = true) :
    cargarConfiguracion r config = (Except.ok (), config) ∧
    actualizarConfiguracion r config = (Except.ok (), config) ∧
    (obtenerConfig r config).2 = config ∧
    (∀ mensaje : String, r.error = some mensaje →
      (obtenerConfig r config).1 = Except.error mensaje) ∧
    (r.error = none → (obtenerConfig r config).1 = Except.ok none) ∧
    (∀ rs : List (Respuesta Config), (∀ x ∈ rs, fallida x = true) →
      cargasSucesivas cargarConfiguracion rs configNegocio0
        = { hora_apertura := "08:00", hora_cierre := "23:00", limite_turnos := 50,
            dias_operacion := DiasOperacion.lista [JSVal.num 1, JSVal.num 2, JSVal.num 3,
              JSVal.num 4, JSVal.num 5, JSVal.num 6] } ∧
      cargasSucesivas actualizarConfiguracion rs configCache0
        = { hora_apertura := "09:00", hora_cierre := "18:00", limite_turnos := 50,
            dias_operacion := DiasOperacion.lista [JSVal.str "Lunes", JSVal.str "Martes",
              JSVal.str "Miércoles", JSVal.str "Jueves", JSVal.str "Viernes",
              JSVal.str "Sábado"] }) := by
  refine ⟨cargarConfiguracion_fallida r config h, actualizarConfiguracion_fallida r config h,
    ?_, ?_, ?_, ?_⟩
  · obtain ⟨data, error⟩ := r
    cases error with
    | some e => rfl
    | none =>
      cases data with
      | none => rfl
      | some d => simp [fallida] at h
  · intro mensaje hm
    obtain ⟨data, error⟩ := r
    simp only at hm
    subst hm
    rfl
  · intro he
    obtain ⟨data, error⟩ := r
    simp only at he
    subst he
    cases data with
    | none => rfl
    | some d => simp [fallida] at h
  · intro rs hrs
    constructor
    · exact cargasSucesivas_fallidas cargarConfiguracion
        (fun x c hx => by rw [cargarConfiguracion_fallida x c hx]) rs configNegocio0 hrs
    · exact cargasSucesivas_fallidas actualizarConfiguracion
        (fun x c hx => by rw [actualizarConfiguracion_fallida x c hx]) rs configCache0 hrs

/-- A load that fails with an error and a load that finds no row, in both clients. -/
theorem configuracion_fallida_witness :
    cargarConfiguracion { data := none, error := some "Failed to fetch" } configNegocio0
      = (Except.ok (), configNegocio0) ∧
    cargasSucesivas actualizarConfiguracion
      [{ data := none, error := some "Failed to fetch" }, { data := none, error := none }]
      configCache0 = configCache0 :=
  have h := configuracion_fallida { data := none, error := some "Failed to fetch" }
    configNegocio0 rfl
  ⟨h.1, (h.2.2.2.2.2 _ (by decide)).2⟩

end Turnord
